import Mathlib

/-!
Shallow embedding of the KTAsite backend (`src/server.js`, plus the extended
variant embedded in `src/unnamed/part_000` which carries the FAQ/like routes).

JSON objects keyed by string (the `users.json` document) and by numeric id
(the `registrations.json` document) are modelled as association lists in
insertion order; property read is first-match lookup, property assignment
replaces the first binding or appends a new one, and `delete obj[k]` removes
the first binding — which on the unique-key lists the server actually builds
coincides with JavaScript object semantics.

HTTP responses are modelled as a status code plus a body string; error bodies
carry the exact error message from the source, success bodies are abbreviated
labels (the claims under study never inspect the JSON shape of success
payloads beyond the data returned separately by each route function).
-/

namespace KTA

/-- An HTTP response: status code and body. -/
structure Resp where
  status : Nat
  body : String
deriving DecidableEq

/-- A stored user record (`users.json` values). `password` holds the bcrypt
hash. -/
structure User where
  name : String
  email : String
  phone : String
  password : String
  isAdmin : Bool
  memberSince : String
deriving DecidableEq

/-- The `users.json` document: a JSON object keyed by email, in insertion
order. -/
abbrev Users := List (String × User)

/-- The hard-coded bootstrap admin identity from `server.js`. -/
def bootstrapEmail : String := "abhinav.reddivari@gmail.com"

/-- JavaScript property assignment `obj[k] = v` on an association list:
replace the first binding of `k`, or append a fresh one. -/
def setPair {κ β : Type} [BEq κ] : List (κ × β) → κ → β → List (κ × β)
  | [], k, v => [(k, v)]
  | (k', v') :: rest, k, v =>
      if k' == k then (k, v) :: rest else (k', v') :: setPair rest k v

/-- JavaScript `delete obj[k]` on an association list: drop the first binding
of `k`. -/
def delPair {κ β : Type} [BEq κ] : List (κ × β) → κ → List (κ × β)
  | [], _ => []
  | (k', v') :: rest, k =>
      if k' == k then rest else (k', v') :: delPair rest k

/-- In-place mutation of the object stored at key `k` (`obj[k].f = ...`):
apply `f` to the first binding of `k`. -/
def modPair {κ β : Type} [BEq κ] : List (κ × β) → κ → (β → β) → List (κ × β)
  | [], _, _ => []
  | (k', v') :: rest, k, f =>
      if k' == k then (k', f v') :: rest else (k', v') :: modPair rest k f

/-- In-place mutation of the element returned by `Array.prototype.find`:
apply `f` to the first element satisfying `p`. -/
def modifyFirst {α : Type} (p : α → Bool) (f : α → α) : List α → List α
  | [] => []
  | x :: xs => if p x then f x :: xs else x :: modifyFirst p f xs

/-- `verifyAdmin` middleware (`server.js:135`): look the authenticated email
up in the users document and require `isAdmin` (a missing record or a false
flag are both refused). -/
def verifyAdmin (users : Users) (callerEmail : String) : Bool :=
  match users.lookup callerEmail with
  | some u => u.isAdmin
  | none => false

/-- `POST /api/auth/signup` body of the handler (`server.js:148`), acting on
an already-parsed users document: reject an existing email with 400,
otherwise store a fresh non-admin record under the email key. -/
def signupUsers (users : Users) (name email phone pwHash now : String) :
    Resp × Users :=
  if (users.lookup email).isSome then
    (⟨400, "User already exists"⟩, users)
  else
    (⟨200, "Account created successfully"⟩,
      setPair users email ⟨name, email, phone, pwHash, false, now⟩)

/-- `POST /api/users/grant-admin` (`server.js:392`), run behind
`authenticateToken` and `verifyAdmin` with `caller` the authenticated email:
404 on unknown target, otherwise set the target's `isAdmin` flag. -/
def grantAdminRoute (users : Users) (caller target : String) : Resp × Users :=
  if !(verifyAdmin users caller) then
    (⟨403, "Admin access required"⟩, users)
  else if (users.lookup target).isNone then
    (⟨404, "User not found"⟩, users)
  else
    (⟨200, "Admin access granted"⟩,
      modPair users target (fun u => { u with isAdmin := true }))

/-- `POST /api/users/revoke-admin` (`server.js:406`): the hard-coded equality
check against the bootstrap admin email answers 403 before the generic
404-on-unknown-target lookup; otherwise clear the target's `isAdmin` flag. -/
def revokeAdminRoute (users : Users) (caller target : String) : Resp × Users :=
  if !(verifyAdmin users caller) then
    (⟨403, "Admin access required"⟩, users)
  else if target == bootstrapEmail then
    (⟨403, "Cannot revoke primary admin access"⟩, users)
  else if (users.lookup target).isNone then
    (⟨404, "User not found"⟩, users)
  else
    (⟨200, "Admin access revoked"⟩,
      modPair users target (fun u => { u with isAdmin := false }))

/-- `DELETE /api/users/:email` (`server.js:424`): the bootstrap admin email is
refused with 403 before the users document is even read; any other email is
deleted unconditionally (no 404 for unknown emails — `delete users[email]` is
a no-op then) and the route reports success. -/
def deleteUserRoute (users : Users) (caller target : String) : Resp × Users :=
  if !(verifyAdmin users caller) then
    (⟨403, "Admin access required"⟩, users)
  else if target == bootstrapEmail then
    (⟨403, "Cannot delete primary admin"⟩, users)
  else
    (⟨200, "User deleted"⟩, delPair users target)

/-- One user-collection mutating operation, as reachable over HTTP: signup is
public, the admin routes carry the authenticated caller email. -/
inductive UserOp where
  | signup (name email phone pwHash now : String)
  | grant (caller target : String)
  | revoke (caller target : String)
  | delUser (caller target : String)

/-- State transition of the users document under one operation. -/
def applyUserOp (users : Users) : UserOp → Users
  | .signup n e p h t => (signupUsers users n e p h t).2
  | .grant c t => (grantAdminRoute users c t).2
  | .revoke c t => (revokeAdminRoute users c t).2
  | .delUser c t => (deleteUserRoute users c t).2

/-- State transition under a sequence of operations. -/
def applyUserOps (users : Users) : List UserOp → Users
  | [] => users
  | op :: rest => applyUserOps (applyUserOp users op) rest

/-- The bootstrap admin is present and has its admin flag set. -/
def hasBootstrapAdmin (users : Users) : Bool :=
  match users.lookup bootstrapEmail with
  | some u => u.isAdmin
  | none => false

/-! ### Sessions (`jsonwebtoken`)

Modelled from the spec: the `jsonwebtoken` dependency is an external library,
not part of this repository. Per the spec's Session Token contract, `sign`
embeds the identity (email) claim and a 7-day expiry and attaches a MAC over
the claim computed with the server-held secret; `verify` accepts a token iff
the MAC re-computed from the secret matches and the token is unexpired, and
then yields the embedded claim. The MAC itself stays an abstract function
parameter. -/

/-- A signed bearer token: email claim, issuance and expiry (seconds), and
signature. -/
structure Token where
  email : String
  iat : Nat
  exp : Nat
  sig : String
deriving DecidableEq

/-- Seven days in seconds, the `expiresIn: '7d'` lifetime. -/
def sevenDays : Nat := 7 * 24 * 60 * 60

/-- `jwt.sign({ email }, JWT_SECRET, { expiresIn: '7d' })` at time `now`. -/
def jwtSign (mac : String → String → String) (secret email : String)
    (now : Nat) : Token :=
  { email := email, iat := now, exp := now + sevenDays,
    sig := mac secret email }

/-- `jwt.verify(token, JWT_SECRET)` at time `now`: signature must match and
the token must be unexpired; on success the embedded email claim is
returned. -/
def jwtVerify (mac : String → String → String) (secret : String) (t : Token)
    (now : Nat) : Option String :=
  if t.sig == mac secret t.email && decide (now < t.exp) then some t.email
  else none

/-- `POST /api/auth/signin` body of the handler (`server.js:175`), acting on
an already-parsed users document. `compare` models `bcrypt.compare`. Unknown
email and mismatched password take literally the same 400 branch body; on
success a token over the stored record's email is issued. -/
def signinUsers (compare : String → String → Bool)
    (mac : String → String → String) (secret : String) (now : Nat)
    (users : Users) (email password : String) : Resp × Option Token :=
  match users.lookup email with
  | none => (⟨400, "Invalid credentials"⟩, none)
  | some user =>
      if compare password user.password then
        (⟨200, "signin ok"⟩, some (jwtSign mac secret user.email now))
      else
        (⟨400, "Invalid credentials"⟩, none)

/-- The request carries invalid credentials: the email is not a key of the
users document, or the supplied password fails `bcrypt.compare` against the
stored hash. -/
def InvalidCred (compare : String → String → Bool) (users : Users)
    (email password : String) : Prop :=
  match users.lookup email with
  | none => True
  | some u => compare password u.password = false

/-! ### Storage-level wrappers

`readData` (`server.js:96`) returns the parsed document or `null` when the
file is missing or unparsable; a loaded document is `some users`, the absent
sentinel is `none`. `writeData` (`server.js:106`) returns `false` on a write
failure (the exception is caught at the call site); the wrappers below thread
that boolean through exactly as the handlers do — every handler discards it,
so only the persisted document (not the response) depends on it. -/

/-- `POST /api/auth/signup` on raw storage. With absent storage the handler
evaluates `users[email]` on `null`, which throws and is caught by the
handler's try/catch as a 500 `Server error`; no write happens. On a write
failure the persisted document is unchanged but the handler still builds its
response without consulting `writeData`'s result. -/
def signupStored (stored : Option Users)
    (name email phone pwHash now : String) (writeOk : Bool) :
    Resp × Option Users :=
  match stored with
  | none => (⟨500, "Server error"⟩, none)
  | some users =>
      let r := signupUsers users name email phone pwHash now
      (r.1, some (if writeOk then r.2 else users))

/-- `POST /api/auth/signin` on raw storage: with absent storage,
`users[email]` on `null` throws into the try/catch, answering 500. -/
def signinStored (compare : String → String → Bool)
    (mac : String → String → String) (secret : String) (now : Nat)
    (stored : Option Users) (email password : String) : Resp × Option Token :=
  match stored with
  | none => (⟨500, "Server error"⟩, none)
  | some users => signinUsers compare mac secret now users email password

/-- The `verifyAdmin` middleware on raw storage: it dereferences the parsed
users document with no null check, so absent storage raises a TypeError that
Express converts to a 500; otherwise a non-admin caller is refused with 403
and an admin caller proceeds (`none`). -/
def adminGateStored (stored : Option Users) (caller : String) : Option Resp :=
  match stored with
  | none => some ⟨500, "Internal Server Error"⟩
  | some users =>
      if verifyAdmin users caller then none
      else some ⟨403, "Admin access required"⟩

/-! ### Events and registrations -/

/-- A stored event (`events.json` entries). -/
structure Event where
  id : Nat
  name : String
  date : String
  time : String
  location : String
  description : String
  icon : String
  registrations : Nat
  createdAt : String
deriving DecidableEq

/-- An event-creation request body: the documented event payload fields,
plus an optional `id` key — the handler spreads the body *after* its computed
`id` field, so a body that carries `id` overrides the server-assigned one
(`registrations` and `createdAt` come after the spread and cannot be
overridden). `id := none` models a body without an `id` key. -/
structure EventBody where
  id : Option Nat
  name : String
  date : String
  time : String
  location : String
  description : String
  icon : String
deriving DecidableEq

/-- The shared id-assignment expression
`coll.length > 0 ? Math.max(...coll.map(x => x.id)) + 1 : 1` that every
create route repeats verbatim. -/
def nextFreeId (ids : List Nat) : Nat :=
  match ids with
  | [] => 1
  | x :: xs => xs.foldl Nat.max x + 1

/-- `POST /api/events` (`server.js:232`): build
`{ id: <max+1>, ...req.body, registrations: 0, createdAt: <now> }` and
append. Because `...req.body` follows the `id` field, a body-supplied `id`
replaces the computed one (`Option.getD` the other way round); the fields
written after the spread always win. Returns the new event (echoed to the
caller) and the updated collection. -/
def createEventRoute (events : List Event) (body : EventBody) (now : String) :
    Event × List Event :=
  let newEvent : Event :=
    { id := body.id.getD (nextFreeId (events.map (·.id))), name := body.name,
      date := body.date, time := body.time, location := body.location,
      description := body.description, icon := body.icon,
      registrations := 0, createdAt := now }
  (newEvent, events ++ [newEvent])

/-- `PUT /api/events/:id` (`server.js:247`): 404 when `findIndex` misses,
otherwise overwrite the found element with the body spread over it (`patch`
models `e => ({ ...e, ...req.body })`). -/
def updateEventRoute (events : List Event) (i : Nat) (patch : Event → Event) :
    Resp × List Event :=
  if (events.find? (fun e => e.id == i)).isSome then
    (⟨200, "event updated"⟩, modifyFirst (fun e => e.id == i) patch events)
  else
    (⟨404, "Event not found"⟩, events)

/-- `DELETE /api/events/:id` (`server.js:261`): filter the id out and report
success unconditionally — there is no existence check and no 404. -/
def deleteEventRoute (events : List Event) (i : Nat) : Resp × List Event :=
  (⟨200, "Event deleted"⟩, events.filter (fun e => !(e.id == i)))

/-- The `registrations.json` document: event id mapped to the emails
registered for that event, in registration order. -/
abbrev Regs := List (Nat × List String)

/-- Combined event/registration storage handled by
`POST /api/events/:id/register`. -/
structure RegState where
  events : List Event
  regs : List (Nat × List String)
deriving DecidableEq

/-- `POST /api/events/:id/register` (`server.js:269`): 404 for an unknown
event id; a missing registration entry is initialised to `[]`; a duplicate
email is refused with 400 before anything is written; otherwise the email is
appended and the found event's stored count is overwritten with the set's new
size. -/
def register (s : RegState) (eventId : Nat) (userEmail : String) :
    Resp × RegState :=
  match s.events.find? (fun e => e.id == eventId) with
  | none => (⟨404, "Event not found"⟩, s)
  | some _ =>
      let cur := (s.regs.lookup eventId).getD []
      if userEmail ∈ cur then
        (⟨400, "Already registered for this event"⟩, s)
      else
        let newList := cur ++ [userEmail]
        (⟨200, "Successfully registered for event"⟩,
          { events :=
              modifyFirst (fun e => e.id == eventId)
                (fun e => { e with registrations := newList.length }) s.events,
            regs := setPair s.regs eventId newList })

/-- A sequence of register calls, each `(event id, caller email)`. -/
def applyRegisters (s : RegState) : List (Nat × String) → RegState
  | [] => s
  | (eid, email) :: rest => applyRegisters (register s eid email).2 rest

/-- Consistency of the event/registration storage: event ids are distinct,
every event's stored count equals the size of its registration set, and no
email appears twice in an event's registration set. -/
def Consistent (s : RegState) : Prop :=
  (s.events.map (·.id)).Nodup ∧
  ∀ e ∈ s.events,
    e.registrations = ((s.regs.lookup e.id).getD []).length ∧
    ((s.regs.lookup e.id).getD []).Nodup

instance (s : RegState) : Decidable (Consistent s) := by
  unfold Consistent; infer_instance

/-- `register` on raw storage for the write-failure analysis: the handler
issues two writes (registrations first, events second) and discards both
results, so the response never depends on them and the persisted halves
change independently. -/
def registerStored (s : RegState) (eventId : Nat) (userEmail : String)
    (regsWriteOk eventsWriteOk : Bool) : Resp × RegState :=
  let r := register s eventId userEmail
  (r.1,
    { events := if eventsWriteOk then r.2.events else s.events,
      regs := if regsWriteOk then r.2.regs else s.regs })

/-! ### Gallery -/

/-- A stored gallery item (`gallery.json` entries, base64 upload variant). -/
structure Photo where
  id : Nat
  title : String
  description : String
  category : String
  fileKind : String
  mimeType : String
  payload : String
  uploadedBy : String
  uploadedAt : String
deriving DecidableEq

/-- `POST /api/gallery/upload` (base64 variant): reject when `fileData`,
`title`, `description` or `category` is falsy (empty string), otherwise
assign the next free id and append. -/
def uploadGalleryRoute (gallery : List Photo)
    (title description category fileData fileKind mimeType caller now :
      String) : Resp × List Photo :=
  if fileData == "" || title == "" || description == "" || category == "" then
    (⟨400, "Missing required fields"⟩, gallery)
  else
    (⟨200, "upload ok"⟩,
      gallery ++
        [{ id := nextFreeId (gallery.map (·.id)), title := title,
           description := description, category := category,
           fileKind := fileKind, mimeType := mimeType, payload := fileData,
           uploadedBy := caller, uploadedAt := now }])

/-- `DELETE /api/gallery/:id` (`server.js:324`): filter and report success
unconditionally, with no existence check. -/
def deleteGalleryRoute (gallery : List Photo) (i : Nat) :
    Resp × List Photo :=
  (⟨200, "Photo deleted"⟩, gallery.filter (fun p => !(p.id == i)))

/-! ### Contact messages and FAQs (extended variant in
`src/unnamed/part_000`) -/

/-- A stored contact message (`messages.json` entries). `likes` is `none`
when the stored JSON object carries no `likes` field (records written by the
older variant); every read of it goes through `m.likes || 0`. -/
structure Message where
  id : Nat
  name : String
  subject : String
  message : String
  date : String
  read : Bool
  likes : Option Nat
deriving DecidableEq

/-- `m.likes || 0`. -/
def likesOf (m : Message) : Nat := m.likes.getD 0

/-- The sender-supplied fields of `POST /api/contact`, plus an optional `id`
key: as in event creation, the handler spreads the body after its computed
`id` field, so a body-supplied `id` overrides it (`date`, `read` and `likes`
come after the spread and cannot be overridden). -/
structure MessageBody where
  id : Option Nat
  name : String
  subject : String
  message : String
deriving DecidableEq

/-- `POST /api/contact` (part_000:501): build
`{ id: <max+1>, ...req.body, date, read: false, likes: 0 }` and append; a
body-supplied `id` replaces the computed one. -/
def createMessageRoute (messages : List Message) (body : MessageBody)
    (now : String) : List Message :=
  messages ++
    [{ id := body.id.getD (nextFreeId (messages.map (·.id))),
       name := body.name, subject := body.subject, message := body.message,
       date := now, read := false, likes := some 0 }]

/-- `PUT /api/contact/:id/read` (part_000:555): 404 when `find` misses,
otherwise set the found message's `read` flag in place. -/
def markReadRoute (messages : List Message) (i : Nat) :
    Resp × List Message :=
  if (messages.find? (fun m => m.id == i)).isSome then
    (⟨200, "message marked read"⟩,
      modifyFirst (fun m => m.id == i) (fun m => { m with read := true })
        messages)
  else
    (⟨404, "Message not found"⟩, messages)

/-- `DELETE /api/contact/:id` (part_000:568): filter and report success
unconditionally, with no existence check. -/
def deleteMessageRoute (messages : List Message) (i : Nat) :
    Resp × List Message :=
  (⟨200, "Message deleted"⟩, messages.filter (fun m => !(m.id == i)))

/-- The comparator `(a, b) => (b.likes || 0) - (a.likes || 0)` handed to
`Array.prototype.sort`: `a` may stay before `b` iff the comparator is
non-positive, i.e. iff `likesOf b ≤ likesOf a`. -/
def faqLE (a b : Message) : Bool := decide (likesOf b ≤ likesOf a)

/-- The public projection of a message served by `GET /api/faqs`: exactly
`id`, `name`, `subject`, `message`, `date` and `likes` — the type has no
`read` field, so the read flag cannot appear in the output. -/
structure FaqItem where
  id : Nat
  name : String
  subject : String
  message : String
  date : String
  likes : Nat
deriving DecidableEq

/-- The field projection applied to each of the top messages. -/
def faqProj (m : Message) : FaqItem :=
  { id := m.id, name := m.name, subject := m.subject, message := m.message,
    date := m.date, likes := likesOf m }

/-- `GET /api/faqs` (part_000:517): sort by like count descending — ECMA-262
requires `Array.prototype.sort` to be stable, which for the total preorder
`faqLE` determines the result uniquely, so the stable `List.mergeSort` is its
exact model — then keep the first 20 and project each to the public field
set. Nothing is written back. -/
def faqRoute (messages : List Message) : List FaqItem :=
  ((messages.mergeSort faqLE).take 20).map faqProj

/-- `POST /api/faqs/:id/like` (part_000:537): 404 when `find` misses,
otherwise bump the found message's like count (`(m.likes || 0) + 1`) in
place; the response echoes the new count. -/
def likeRoute (messages : List Message) (i : Nat) : Resp × List Message :=
  match messages.find? (fun m => m.id == i) with
  | none => (⟨404, "Message not found"⟩, messages)
  | some m =>
      (⟨200, toString (likesOf m + 1)⟩,
        modifyFirst (fun m => m.id == i)
          (fun m => { m with likes := some (likesOf m + 1) }) messages)

/-- `n` successive like calls on the same id. -/
def likeIter : Nat → List Message → Nat → List Message
  | 0, messages, _ => messages
  | n + 1, messages, i => likeIter n (likeRoute messages i).2 i

/-! ### Association-list lemmas -/

theorem lookup_setPair_self {κ β : Type} [BEq κ] [LawfulBEq κ]
    (l : List (κ × β)) (k : κ) (v : β) : (setPair l k v).lookup k = some v := by
  induction l with
  | nil => simp [setPair]
  | cons hd tl ih =>
      obtain ⟨k', v'⟩ := hd
      by_cases h : k' = k
      · subst h; simp [setPair]
      · have hb : (k' == k) = false := by simp [h]
        have hb' : (k == k') = false := by simp [Ne.symm h]
        simp [setPair, hb, List.lookup_cons, hb', ih]

theorem lookup_setPair_ne {κ β : Type} [BEq κ] [LawfulBEq κ]
    (l : List (κ × β)) (k k' : κ) (v : β) (h : k' ≠ k) :
    (setPair l k v).lookup k' = l.lookup k' := by
  have hb : (k' == k) = false := by simp [h]
  induction l with
  | nil => simp [setPair, List.lookup_cons, hb]
  | cons hd tl ih =>
      obtain ⟨k₀, v₀⟩ := hd
      by_cases hk : k₀ = k
      · subst hk
        simp [setPair, List.lookup_cons, hb]
      · have hk₀ : (k₀ == k) = false := by simp [hk]
        by_cases hk' : k' = k₀
        · subst hk'
          simp [setPair, hk₀, List.lookup_cons]
        · have hk'' : (k' == k₀) = false := by simp [hk']
          simp [setPair, hk₀, List.lookup_cons, hk'', ih]

theorem lookup_modPair_self {κ β : Type} [BEq κ] [LawfulBEq κ]
    (l : List (κ × β)) (k : κ) (f : β → β) :
    (modPair l k f).lookup k = (l.lookup k).map f := by
  induction l with
  | nil => simp [modPair]
  | cons hd tl ih =>
      obtain ⟨k₀, v₀⟩ := hd
      by_cases hk : k₀ = k
      · subst hk; simp [modPair]
      · have hk₀ : (k₀ == k) = false := by simp [hk]
        have hk₀' : (k == k₀) = false := by simp [Ne.symm hk]
        simp [modPair, hk₀, List.lookup_cons, hk₀', ih]

theorem lookup_modPair_ne {κ β : Type} [BEq κ] [LawfulBEq κ]
    (l : List (κ × β)) (k k' : κ) (f : β → β) (h : k' ≠ k) :
    (modPair l k f).lookup k' = l.lookup k' := by
  induction l with
  | nil => simp [modPair]
  | cons hd tl ih =>
      obtain ⟨k₀, v₀⟩ := hd
      by_cases hk : k₀ = k
      · subst hk
        have hb : (k' == k₀) = false := by simp [h]
        simp [modPair, List.lookup_cons, hb]
      · have hk₀ : (k₀ == k) = false := by simp [hk]
        by_cases hk' : k' = k₀
        · subst hk'
          simp [modPair, hk₀, List.lookup_cons]
        · have hk'' : (k' == k₀) = false := by simp [hk']
          simp [modPair, hk₀, List.lookup_cons, hk'', ih]

theorem lookup_delPair_ne {κ β : Type} [BEq κ] [LawfulBEq κ]
    (l : List (κ × β)) (k k' : κ) (h : k' ≠ k) :
    (delPair l k).lookup k' = l.lookup k' := by
  induction l with
  | nil => simp [delPair]
  | cons hd tl ih =>
      obtain ⟨k₀, v₀⟩ := hd
      by_cases hk : k₀ = k
      · subst hk
        have hb : (k' == k₀) = false := by simp [h]
        simp [delPair, List.lookup_cons, hb]
      · have hk₀ : (k₀ == k) = false := by simp [hk]
        by_cases hk' : k' = k₀
        · subst hk'
          simp [delPair, hk₀, List.lookup_cons]
        · have hk'' : (k' == k₀) = false := by simp [hk']
          simp [delPair, hk₀, List.lookup_cons, hk'', ih]

/-! ### `modifyFirst` lemmas -/

theorem modifyFirst_append_not {α : Type} (p : α → Bool) (f : α → α)
    (l₁ l₂ : List α) (a : α) (h : ∀ x ∈ l₁, p x = false) (ha : p a = true) :
    modifyFirst p f (l₁ ++ a :: l₂) = l₁ ++ f a :: l₂ := by
  induction l₁ with
  | nil => simp [modifyFirst, ha]
  | cons hd tl ih =>
      have hhd : p hd = false := h hd (by simp)
      simp only [List.cons_append, modifyFirst, hhd]
      simp only [Bool.false_eq_true, if_false, List.cons.injEq, true_and]
      exact ih fun x hx => h x (by simp [hx])

theorem map_modifyFirst {α β : Type} (p : α → Bool) (f : α → α) (g : α → β)
    (l : List α) (hg : ∀ a, g (f a) = g a) :
    (modifyFirst p f l).map g = l.map g := by
  induction l with
  | nil => simp [modifyFirst]
  | cons hd tl ih =>
      by_cases hp : p hd
      · simp [modifyFirst, hp, hg]
      · simp [modifyFirst, hp, ih]

/-! ### `foldl Nat.max` lemmas (the `Math.max(...ids)` expression) -/

theorem foldl_max_mem (x : Nat) (xs : List Nat) :
    xs.foldl Nat.max x = x ∨ xs.foldl Nat.max x ∈ xs := by
  induction xs generalizing x with
  | nil => simp
  | cons hd tl ih =>
      have hfold : (hd :: tl).foldl Nat.max x = tl.foldl Nat.max (Nat.max x hd) :=
        rfl
      rcases ih (Nat.max x hd) with h | h
      · have hm : Nat.max x hd = x ∨ Nat.max x hd = hd := max_choice x hd
        rcases hm with hm | hm
        · exact Or.inl (by rw [hfold, h, hm])
        · exact Or.inr (by rw [hfold, h, hm]; exact List.mem_cons_self hd tl)
      · exact Or.inr (by rw [hfold]; exact List.mem_cons_of_mem hd h)

theorem le_foldl_max (x : Nat) (xs : List Nat) :
    x ≤ xs.foldl Nat.max x ∧ ∀ y ∈ xs, y ≤ xs.foldl Nat.max x := by
  induction xs generalizing x with
  | nil => simp
  | cons hd tl ih =>
      obtain ⟨h1, h2⟩ := ih (Nat.max x hd)
      refine ⟨le_trans (Nat.le_max_left x hd) h1, ?_⟩
      intro y hy
      rcases List.mem_cons.mp hy with rfl | hy
      · exact le_trans (Nat.le_max_right x y) h1
      · exact h2 y hy

/-- Characterization of the id-assignment expression on a nonempty id list:
it returns the successor of the collection's maximum id. -/
theorem nextFreeId_nonempty (ids : List Nat) (h : ids ≠ []) :
    ∃ m, m ∈ ids ∧ (∀ j ∈ ids, j ≤ m) ∧ nextFreeId ids = m + 1 := by
  match ids, h with
  | x :: xs, _ =>
      refine ⟨xs.foldl Nat.max x, ?_, ?_, rfl⟩
      · rcases foldl_max_mem x xs with h | h
        · simp [h]
        · simp [h]
      · intro j hj
        rcases List.mem_cons.mp hj with rfl | hj
        · exact (le_foldl_max j xs).1
        · exact (le_foldl_max x xs).2 j hj

/-! ### C1: the bootstrap admin cannot be demoted or deleted -/

theorem hasBootstrapAdmin_iff (users : Users) :
    hasBootstrapAdmin users = true ↔
      ∃ u, users.lookup bootstrapEmail = some u ∧ u.isAdmin = true := by
  unfold hasBootstrapAdmin
  cases he : users.lookup bootstrapEmail with
  | none => simp
  | some u => simp

theorem hasBootstrapAdmin_applyUserOp (users : Users) (op : UserOp)
    (h : hasBootstrapAdmin users = true) :
    hasBootstrapAdmin (applyUserOp users op) = true := by
  obtain ⟨u, hu, hadm⟩ := (hasBootstrapAdmin_iff users).mp h
  cases op with
  | signup n e p hsh t =>
      simp only [applyUserOp, signupUsers]
      cases hex : (users.lookup e).isSome with
      | true => simpa using h
      | false =>
          have hne : bootstrapEmail ≠ e := by
            intro heq
            rw [← heq, hu] at hex
            simp at hex
          simp only [hex, Bool.false_eq_true, if_false]
          rw [hasBootstrapAdmin_iff]
          exact ⟨u, by rw [lookup_setPair_ne _ _ _ _ hne]; exact hu, hadm⟩
  | grant c t =>
      simp only [applyUserOp, grantAdminRoute]
      cases hv : verifyAdmin users c with
      | false => simpa using h
      | true =>
          cases hex : (users.lookup t).isNone with
          | true => simpa [hv] using h
          | false =>
              simp only [hv, hex, Bool.not_true, Bool.false_eq_true, if_false]
              rw [hasBootstrapAdmin_iff]
              by_cases ht : bootstrapEmail = t
              · subst ht
                refine ⟨{ u with isAdmin := true }, ?_, rfl⟩
                rw [lookup_modPair_self, hu]
                rfl
              · exact ⟨u, by rw [lookup_modPair_ne _ _ _ _ ht]; exact hu, hadm⟩
  | revoke c t =>
      simp only [applyUserOp, revokeAdminRoute]
      cases hv : verifyAdmin users c with
      | false => simpa using h
      | true =>
          cases hb : t == bootstrapEmail with
          | true => simpa [hv] using h
          | false =>
              cases hex : (users.lookup t).isNone with
              | true => simpa [hv, hb] using h
              | false =>
                  simp only [hv, hb, hex, Bool.not_true, Bool.false_eq_true,
                    if_false]
                  rw [hasBootstrapAdmin_iff]
                  have ht : bootstrapEmail ≠ t := by
                    intro heq
                    rw [heq] at hb
                    simp at hb
                  exact ⟨u, by rw [lookup_modPair_ne _ _ _ _ ht]; exact hu,
                    hadm⟩
  | delUser c t =>
      simp only [applyUserOp, deleteUserRoute]
      cases hv : verifyAdmin users c with
      | false => simpa using h
      | true =>
          cases hb : t == bootstrapEmail with
          | true => simpa [hv] using h
          | false =>
              simp only [hv, hb, Bool.not_true, Bool.false_eq_true, if_false]
              rw [hasBootstrapAdmin_iff]
              have ht : bootstrapEmail ≠ t := by
                intro heq
                rw [heq] at hb
                simp at hb
              exact ⟨u, by rw [lookup_delPair_ne _ _ _ ht]; exact hu, hadm⟩

theorem hasBootstrapAdmin_applyUserOps (users : Users) (ops : List UserOp)
    (h : hasBootstrapAdmin users = true) :
    hasBootstrapAdmin (applyUserOps users ops) = true := by
  induction ops generalizing users with
  | nil => exact h
  | cons op rest ih =>
      exact ih (applyUserOp users op) (hasBootstrapAdmin_applyUserOp users op h)

/-- Claim C1: revoke-admin and delete-user aimed at the bootstrap admin email
answer 403 and leave the users document untouched for every caller, privileged
or not (the universal quantification over `users` also covers documents in
which the bootstrap email is absent, so the 403 — rather than the generic 404
— shows the hard-coded equality check fires before the lookup logic); and from
any state in which the bootstrap admin is present with its admin flag set,
every sequence of user-collection operations preserves that invariant. -/
theorem bootstrap_admin_protected (users : Users) (caller : String)
    (ops : List UserOp) (h : hasBootstrapAdmin users = true) :
    (revokeAdminRoute users caller bootstrapEmail).1.status = 403 ∧
    (revokeAdminRoute users caller bootstrapEmail).2 = users ∧
    (deleteUserRoute users caller bootstrapEmail).1.status = 403 ∧
    (deleteUserRoute users caller bootstrapEmail).2 = users ∧
    hasBootstrapAdmin (applyUserOps users ops) = true := by
  refine ⟨?_, ?_, ?_, ?_, hasBootstrapAdmin_applyUserOps users ops h⟩ <;>
    · simp only [revokeAdminRoute, deleteUserRoute]
      cases hv : verifyAdmin users caller <;> simp [hv]

/-- Concrete instantiation of `bootstrap_admin_protected`: the seeded users
document, the bootstrap admin itself as caller, and a signup / grant / revoke
/ delete sequence targeting another account. -/
def seedAdmin : User :=
  { name := "Abhinav Reddivari", email := bootstrapEmail,
    phone := "+60123456789", password := "h0", isAdmin := true,
    memberSince := "t0" }

def seedUsers : Users := [(bootstrapEmail, seedAdmin)]

def demoUserOps : List UserOp :=
  [.signup "Bob" "bob@x.com" "+601" "h1" "t1",
   .grant bootstrapEmail "bob@x.com",
   .revoke bootstrapEmail "bob@x.com",
   .delUser bootstrapEmail "bob@x.com"]

theorem bootstrap_admin_protected_witness :
    (revokeAdminRoute seedUsers bootstrapEmail bootstrapEmail).1.status = 403 ∧
    (revokeAdminRoute seedUsers bootstrapEmail bootstrapEmail).2 = seedUsers ∧
    (deleteUserRoute seedUsers bootstrapEmail bootstrapEmail).1.status = 403 ∧
    (deleteUserRoute seedUsers bootstrapEmail bootstrapEmail).2 = seedUsers ∧
    hasBootstrapAdmin (applyUserOps seedUsers demoUserOps) = true :=
  bootstrap_admin_protected seedUsers bootstrapEmail demoUserOps (by decide)

/-! ### C2: the absent sentinel is not treated as an empty collection -/

/-- Counterexample to claim C2 as stated: at the concrete signup request
below, absent storage answers 500 and creates nothing, while the empty users
document answers 200 — the absent sentinel is treated differently from the
empty collection of the expected shape. -/
theorem absent_sentinel_counterexample :
    (signupStored none "Bob" "bob@x.com" "+601" "h1" "t1" true).1 ≠
      (signupStored (some []) "Bob" "bob@x.com" "+601" "h1" "t1" true).1 ∧
    (signupStored none "Bob" "bob@x.com" "+601" "h1" "t1" true).1.status =
      500 ∧
    (signupStored (some []) "Bob" "bob@x.com" "+601" "h1" "t1" true).1.status
      = 200 := by
  refine ⟨?_, rfl, rfl⟩
  decide

/-- Claim C2, amended: `readData` does return an absent sentinel (`null`)
when the underlying file is missing or fails to parse, but its callers
dereference that sentinel instead of treating it as an empty collection:
signup and signin crash into their try/catch and answer a generic 500 with
nothing written, and the `verifyAdmin` gate's dereference becomes the
framework's 500 — never the behavior of the same request on an empty
document. -/
theorem absent_storage_yields_500 (name email phone pwHash now password
    caller : String) (writeOk : Bool) (compare : String → String → Bool)
    (mac : String → String → String) (secret : String) (nowT : Nat) :
    signupStored none name email phone pwHash now writeOk =
      (⟨500, "Server error"⟩, none) ∧
    signinStored compare mac secret nowT none email password =
      (⟨500, "Server error"⟩, none) ∧
    adminGateStored none caller = some ⟨500, "Internal Server Error"⟩ :=
  ⟨rfl, rfl, rfl⟩

/-! ### C5: write failures never reach the response -/

/-- Counterexample to claim C5 as stated: at the concrete signup below whose
save fails (`writeData` returns false, the persisted document stays empty),
the handler still reports success with a 200. -/
theorem write_failure_counterexample :
    (signupStored (some []) "Bob" "bob@x.com" "+601" "h1" "t1" false).1 =
      ⟨200, "Account created successfully"⟩ ∧
    (signupStored (some []) "Bob" "bob@x.com" "+601" "h1" "t1" false).2 =
      some [] := by
  exact ⟨rfl, rfl⟩

/-- Claim C5, amended: storage failures are caught at the point of the
read/write call — `readData` returns the null sentinel and `writeData`
returns false — but no handler consults `writeData`'s result, so the response
of signup and of event registration is independent of the write outcome and a
signup whose save fails still reports success; only read failures surface as
500s, through the crash on the null sentinel. -/
theorem write_result_ignored (users : Users) (s : RegState)
    (name email phone pwHash now userEmail : String) (eid : Nat)
    (wo wo1 wo2 : Bool) :
    (signupStored (some users) name email phone pwHash now wo).1 =
      (signupStored (some users) name email phone pwHash now true).1 ∧
    (registerStored s eid userEmail wo1 wo2).1 =
      (register s eid userEmail).1 ∧
    (users.lookup email = none →
      (signupStored (some users) name email phone pwHash now false).1.status
        = 200) := by
  refine ⟨rfl, rfl, fun h => ?_⟩
  simp [signupStored, signupUsers, h]

theorem write_result_ignored_witness :
    List.lookup "bob@x.com" ([] : Users) = none ∧
    (signupStored (some []) "Bob" "bob@x.com" "+601" "h1" "t1" false).1.status
      = 200 :=
  ⟨rfl,
    (write_result_ignored [] ⟨[], []⟩ "Bob" "bob@x.com" "+601" "h1" "t1" "e" 1
        true true true).2.2 rfl⟩

/-! ### C6: invalid signin credentials are indistinguishable -/

/-- The request carries invalid credentials: unknown email, or a stored hash
the supplied password fails `bcrypt.compare` against. -/
def invalidCred (compare : String → String → Bool) (users : Users)
    (email password : String) : Bool :=
  match users.lookup email with
  | none => true
  | some u => !(compare password u.password)

theorem signin_invalid_resp (compare : String → String → Bool)
    (mac : String → String → String) (secret : String) (now : Nat)
    (users : Users) (e p : String) (h : invalidCred compare users e p = true) :
    signinUsers compare mac secret now users e p =
      (⟨400, "Invalid credentials"⟩, none) := by
  unfold invalidCred at h
  unfold signinUsers
  cases hu : users.lookup e with
  | none => rfl
  | some u =>
      rw [hu] at h
      simp only [Bool.not_eq_true'] at h
      simp [h]

/-- Claim C6: every signin with invalid credentials — whether the email is
unknown or the password fails verification — produces literally the same
response: status 400, body `Invalid credentials`, no token; hence any two
invalid attempts are indistinguishable to the caller. -/
theorem signin_uniform_invalid (compare : String → String → Bool)
    (mac : String → String → String) (secret : String) (now : Nat)
    (users : Users) (e₁ p₁ e₂ p₂ : String)
    (h₁ : invalidCred compare users e₁ p₁ = true)
    (h₂ : invalidCred compare users e₂ p₂ = true) :
    signinUsers compare mac secret now users e₁ p₁ =
      (⟨400, "Invalid credentials"⟩, none) ∧
    signinUsers compare mac secret now users e₁ p₁ =
      signinUsers compare mac secret now users e₂ p₂ := by
  refine ⟨signin_invalid_resp compare mac secret now users e₁ p₁ h₁, ?_⟩
  rw [signin_invalid_resp compare mac secret now users e₁ p₁ h₁,
    signin_invalid_resp compare mac secret now users e₂ p₂ h₂]

/-- Model instances for concrete evaluation: plaintext comparison and
concatenation as the abstract MAC. -/
def demoCompare (p h : String) : Bool := p == h

def demoMac (secret payload : String) : String := secret ++ payload

theorem signin_uniform_invalid_witness :
    invalidCred demoCompare seedUsers "ghost@x.com" "pw" = true ∧
    invalidCred demoCompare seedUsers bootstrapEmail "wrong" = true ∧
    (signinUsers demoCompare demoMac "s" 0 seedUsers "ghost@x.com" "pw" =
        (⟨400, "Invalid credentials"⟩, none) ∧
      signinUsers demoCompare demoMac "s" 0 seedUsers "ghost@x.com" "pw" =
        signinUsers demoCompare demoMac "s" 0 seedUsers bootstrapEmail
          "wrong") :=
  ⟨by decide, by decide,
    signin_uniform_invalid demoCompare demoMac "s" 0 seedUsers "ghost@x.com"
      "pw" bootstrapEmail "wrong" (by decide) (by decide)⟩

/-! ### C7: token verification after signin returns the signin identity -/

/-- Claim C7: a signin with valid credentials returns a token which, verified
at any time within its 7-day window, resolves to exactly the email that
signed in (under the users-document well-formedness that holds in every
reachable state: the record stored under a key carries that key as its
`email` field). -/
theorem signin_token_roundtrip (compare : String → String → Bool)
    (mac : String → String → String) (secret : String) (now vtime : Nat)
    (users : Users) (email password : String) (u : User)
    (hu : users.lookup email = some u)
    (hpw : compare password u.password = true)
    (hid : u.email = email)
    (hvt : vtime < now + sevenDays) :
    ∃ t, (signinUsers compare mac secret now users email password).2 = some t
      ∧ jwtVerify mac secret t vtime = some email := by
  refine ⟨jwtSign mac secret u.email now, ?_, ?_⟩
  · simp [signinUsers, hu, hpw]
  · simp [jwtVerify, jwtSign, hid, hvt]

theorem signin_token_roundtrip_witness :
    List.lookup bootstrapEmail seedUsers = some seedAdmin ∧
    demoCompare "h0" seedAdmin.password = true ∧
    seedAdmin.email = bootstrapEmail ∧
    0 < 0 + sevenDays ∧
    ∃ t, (signinUsers demoCompare demoMac "s" 0 seedUsers bootstrapEmail
        "h0").2 = some t ∧ jwtVerify demoMac "s" t 0 = some bootstrapEmail :=
  ⟨by decide, by decide, rfl, by decide,
    signin_token_roundtrip demoCompare demoMac "s" 0 0 seedUsers
      bootstrapEmail "h0" seedAdmin (by decide) (by decide) rfl (by decide)⟩

/-! ### C3: registration counts always match registration sets -/

theorem register_consistent (s : RegState) (eid : Nat) (email : String)
    (h : Consistent s) : Consistent (register s eid email).2 := by
  obtain ⟨hnd, hev⟩ := h
  cases hfind : s.events.find? (fun e => e.id == eid) with
  | none =>
      simp only [register, hfind]
      exact ⟨hnd, hev⟩
  | some e₀ =>
      by_cases hmem : email ∈ (s.regs.lookup eid).getD []
      · simp only [register, hfind, hmem, if_true]
        exact ⟨hnd, hev⟩
      · simp only [register, hfind, hmem, if_false]
        have hpe := List.find?_some hfind
        have he₀id : e₀.id = eid := by simpa using hpe
        obtain ⟨-, l₁, l₂, hsplit, hl₁⟩ := List.find?_eq_some.mp hfind
        have hl₁' : ∀ x ∈ l₁, (x.id == eid) = false := by
          intro x hx
          simpa using hl₁ x hx
        set cur : List String := (s.regs.lookup eid).getD [] with hcur
        set f : Event → Event :=
          fun e => { e with registrations := (cur ++ [email]).length } with hf
        have hmod :
            modifyFirst (fun e => e.id == eid) f s.events =
              l₁ ++ f e₀ :: l₂ := by
          rw [hsplit]
          exact modifyFirst_append_not _ _ _ _ _ hl₁' hpe
        have hids :
            (l₁ ++ f e₀ :: l₂).map (·.id) = s.events.map (·.id) := by
          rw [hsplit]
          simp [hf]
        have hl₂ : ∀ x ∈ l₂, x.id ≠ eid := by
          intro x hx heq
          rw [hsplit] at hnd
          simp only [List.map_append, List.map_cons] at hnd
          have h2 := (List.nodup_append.mp hnd).2.1
          rw [List.nodup_cons] at h2
          exact h2.1 (by
            rw [he₀id, ← heq]
            exact List.mem_map_of_mem (·.id) hx)
        constructor
        · simp only [RegState.events] at *
          rw [hmod, hids]
          exact hnd
        · intro e' he'
          simp only [RegState.events, RegState.regs] at *
          rw [hmod] at he'
          rcases List.mem_append.mp he' with hin | hin
          · have hne : e'.id ≠ eid := by
              intro heq
              have := hl₁' e' hin
              rw [heq] at this
              simp at this
            have hmemold : e' ∈ s.events := by
              rw [hsplit]
              exact List.mem_append_left _ hin
            rw [lookup_setPair_ne _ _ _ _ hne]
            exact hev e' hmemold
          · rcases List.mem_cons.mp hin with rfl | hin
            · have hid : (f e₀).id = eid := he₀id
              rw [hid, lookup_setPair_self]
              refine ⟨rfl, ?_⟩
              have he₀mem : e₀ ∈ s.events := by
                rw [hsplit]
                exact List.mem_append_right _ (List.mem_cons_self e₀ l₂)
              have hold := hev e₀ he₀mem
              rw [he₀id] at hold
              simp only [Option.getD_some]
              rw [List.nodup_append]
              exact ⟨hold.2, List.nodup_singleton email,
                fun a ha hb => hmem (by
                  rcases List.mem_singleton.mp hb with rfl
                  exact ha)⟩
            · have hne : e'.id ≠ eid := hl₂ e' hin
              have hmemold : e' ∈ s.events := by
                rw [hsplit]
                exact List.mem_append_right _ (List.mem_cons_of_mem e₀ hin)
              rw [lookup_setPair_ne _ _ _ _ hne]
              exact hev e' hmemold

/-- Claim C3: starting from a consistent state — distinct event ids, every
event's stored `registrations` count equal to the size of its registration
set, no duplicate email in any set — any sequence of register-for-event calls
preserves consistency: the count is always recomputed as the set's size and
each email appears at most once per event. -/
theorem register_sequence_consistent (s : RegState)
    (calls : List (Nat × String)) (h : Consistent s) :
    Consistent (applyRegisters s calls) := by
  induction calls generalizing s with
  | nil => exact h
  | cons c rest ih =>
      obtain ⟨eid, email⟩ := c
      exact ih (register s eid email).2 (register_consistent s eid email h)

/-- A seeded event collection and a short registration history for concrete
evaluation. -/
def demoEvent : Event :=
  { id := 1, name := "Sankranti Festival 2026", date := "2026-01-14",
    time := "09:00", location := "Community Hall, Klang",
    description := "Grand celebration", icon := "lamp", registrations := 0,
    createdAt := "t0" }

def demoRegState : RegState := { events := [demoEvent], regs := [] }

def demoCalls : List (Nat × String) :=
  [(1, "a@x.com"), (1, "b@x.com"), (1, "a@x.com"), (2, "c@x.com")]

theorem register_sequence_consistent_witness :
    Consistent demoRegState ∧ Consistent (applyRegisters demoRegState demoCalls) :=
  ⟨by decide, register_sequence_consistent demoRegState demoCalls (by decide)⟩

/-! ### C4: 404 on missing records — true for lookups, false for deletes -/

/-- Counterexample to claim C4 as stated: deleting event id 1 from the empty
collection — no record with that id exists — answers 200 `Event deleted`,
not the claimed 404. -/
theorem delete_missing_counterexample :
    (deleteEventRoute [] 1).1.status ≠ 404 ∧
    (deleteEventRoute [] 1).1 = ⟨200, "Event deleted"⟩ := by
  exact ⟨by decide, rfl⟩

/-- Claim C4, amended: the operations that look a record up before acting —
event update, event registration, message mark-read, message like, and user
revoke-admin — answer 404 when no record with the given id or email exists
and leave the collection unchanged; the delete operations (event, gallery,
message, user) instead filter the collection and report success with 200
whether or not the record existed. -/
theorem missing_record_handling (events : List Event) (gallery : List Photo)
    (messages : List Message) (users : Users) (i : Nat)
    (patch : Event → Event) (s : RegState) (caller target email : String) :
    (events.find? (fun e => e.id == i) = none →
      updateEventRoute events i patch = (⟨404, "Event not found"⟩, events)) ∧
    (s.events.find? (fun e => e.id == i) = none →
      register s i email = (⟨404, "Event not found"⟩, s)) ∧
    (messages.find? (fun m => m.id == i) = none →
      markReadRoute messages i = (⟨404, "Message not found"⟩, messages)) ∧
    (messages.find? (fun m => m.id == i) = none →
      likeRoute messages i = (⟨404, "Message not found"⟩, messages)) ∧
    (verifyAdmin users caller = true → target ≠ bootstrapEmail →
      users.lookup target = none →
      revokeAdminRoute users caller target =
        (⟨404, "User not found"⟩, users)) ∧
    (deleteEventRoute events i).1.status = 200 ∧
    (deleteGalleryRoute gallery i).1.status = 200 ∧
    (deleteMessageRoute messages i).1.status = 200 ∧
    (verifyAdmin users caller = true → target ≠ bootstrapEmail →
      (deleteUserRoute users caller target).1.status = 200) := by
  refine ⟨?_, ?_, ?_, ?_, ?_, rfl, rfl, rfl, ?_⟩
  · intro h
    simp [updateEventRoute, h]
  · intro h
    simp [register, h]
  · intro h
    simp [markReadRoute, h]
  · intro h
    simp [likeRoute, h]
  · intro hv ht hl
    have hb : (target == bootstrapEmail) = false := by simp [ht]
    simp [revokeAdminRoute, hv, hb, hl]
  · intro hv ht
    have hb : (target == bootstrapEmail) = false := by simp [ht]
    simp [deleteUserRoute, hv, hb]

theorem missing_record_handling_witness :
    updateEventRoute [] 1 id = (⟨404, "Event not found"⟩, []) ∧
    register ⟨[], []⟩ 1 "a@x.com" = (⟨404, "Event not found"⟩, ⟨[], []⟩) ∧
    markReadRoute [] 1 = (⟨404, "Message not found"⟩, []) ∧
    likeRoute [] 1 = (⟨404, "Message not found"⟩, []) ∧
    revokeAdminRoute seedUsers bootstrapEmail "ghost@x.com" =
      (⟨404, "User not found"⟩, seedUsers) ∧
    (deleteEventRoute ([] : List Event) 1).1.status = 200 ∧
    (deleteGalleryRoute ([] : List Photo) 1).1.status = 200 ∧
    (deleteMessageRoute ([] : List Message) 1).1.status = 200 ∧
    (deleteUserRoute seedUsers bootstrapEmail "ghost@x.com").1.status = 200 := by
  obtain ⟨h1, h2, h3, h4, h5, h6, h7, h8, h9⟩ :=
    missing_record_handling [] [] [] seedUsers 1 id ⟨[], []⟩ bootstrapEmail
      "ghost@x.com" "a@x.com"
  exact ⟨h1 rfl, h2 rfl, h3 rfl, h4 rfl,
    h5 (by decide) (by decide) (by decide), h6, h7, h8,
    h9 (by decide) (by decide)⟩

/-! ### C8: id assignment is max existing id plus one, with reuse -/

/-- An event record with a chosen id, for the concrete {1,3,4} scenario. -/
def evWithId (i : Nat) : Event := { demoEvent with id := i }

def demoEvents134 : List Event := [evWithId 1, evWithId 3, evWithId 4]

def demoEventBody : EventBody :=
  { id := none, name := "New Year Meetup", date := "2026-01-01",
    time := "18:00", location := "Club House",
    description := "Meet and greet", icon := "star" }

/-- Counterexample to claim C8 as stated: the event and message create
handlers spread the request body *after* the computed `id` field, so a body
carrying an `id` key overrides the max-plus-one assignment — creating against
the collection with ids {1,3,4} with a body that carries id 42 stores a
record with id 42, not the claimed 5. -/
theorem body_id_override_counterexample :
    (createEventRoute demoEvents134 { demoEventBody with id := some 42 }
      "t1").1.id = 42 ∧
    (createEventRoute demoEvents134 { demoEventBody with id := some 42 }
      "t1").1.id ≠ 5 := by
  exact ⟨rfl, by decide⟩

/-- Claim C8, amended: for a request body that carries no `id` key, the
Events, Gallery and Messages create routes assign the new record id as
(maximum id in the collection) + 1, or 1 on an empty collection, and append
the record — concretely a collection with ids {1,3,4} yields id 5 next, and
after deleting id 4 the next create yields id 4 again, so ids are reused, not
globally monotonic; but because the event and message handlers spread the
body after the computed `id` field, a body-supplied `id` replaces the
computed one (the gallery upload route destructures named fields and cannot
be overridden). -/
theorem id_assignment (events : List Event) (gallery : List Photo)
    (messages : List Message) (body : EventBody) (mbody : MessageBody)
    (now title description category fileData fileKind mimeType caller :
      String)
    (he : events ≠ []) (hg : gallery ≠ []) (hm : messages ≠ [])
    (hval : fileData ≠ "" ∧ title ≠ "" ∧ description ≠ "" ∧ category ≠ "")
    (hbid : body.id = none) (hmid : mbody.id = none) :
    (∃ m, m ∈ events.map (·.id) ∧ (∀ j ∈ events.map (·.id), j ≤ m) ∧
      (createEventRoute events body now).1.id = m + 1 ∧
      (createEventRoute events body now).2 =
        events ++ [(createEventRoute events body now).1]) ∧
    (createEventRoute [] body now).1.id = 1 ∧
    (∃ m, m ∈ gallery.map (·.id) ∧ (∀ j ∈ gallery.map (·.id), j ≤ m) ∧
      ∃ p : Photo, p.id = m + 1 ∧
        (uploadGalleryRoute gallery title description category fileData
          fileKind mimeType caller now).2 = gallery ++ [p]) ∧
    (∃ m, m ∈ messages.map (·.id) ∧ (∀ j ∈ messages.map (·.id), j ≤ m) ∧
      ∃ msg : Message, msg.id = m + 1 ∧
        createMessageRoute messages mbody now = messages ++ [msg]) ∧
    (∀ j, (createEventRoute events { body with id := some j } now).1.id = j)
      ∧
    (∀ j, ∃ msg : Message, msg.id = j ∧
      createMessageRoute messages { mbody with id := some j } now =
        messages ++ [msg]) ∧
    (createEventRoute demoEvents134 demoEventBody "t1").1.id = 5 ∧
    (createEventRoute (deleteEventRoute demoEvents134 4).2 demoEventBody
      "t2").1.id = 4 := by
  obtain ⟨hf, ht, hd, hc⟩ := hval
  refine ⟨?_, ?_, ?_, ?_, fun j => rfl, fun j => ⟨_, rfl, rfl⟩,
    by decide, by decide⟩
  · obtain ⟨m, hmem, hmax, hnext⟩ :=
      nextFreeId_nonempty (events.map (·.id)) (by simpa using he)
    exact ⟨m, hmem, hmax, by simp [createEventRoute, hbid, hnext], rfl⟩
  · simp [createEventRoute, hbid, nextFreeId]
  · obtain ⟨m, hmem, hmax, hnext⟩ :=
      nextFreeId_nonempty (gallery.map (·.id)) (by simpa using hg)
    have hbf : (fileData == "") = false := by simp [hf]
    have hbt : (title == "") = false := by simp [ht]
    have hbd : (description == "") = false := by simp [hd]
    have hbc : (category == "") = false := by simp [hc]
    refine ⟨m, hmem, hmax,
      { id := nextFreeId (gallery.map (·.id)), title := title,
        description := description, category := category,
        fileKind := fileKind, mimeType := mimeType, payload := fileData,
        uploadedBy := caller, uploadedAt := now }, hnext, ?_⟩
    simp [uploadGalleryRoute, hbf, hbt, hbd, hbc]
  · obtain ⟨m, hmem, hmax, hnext⟩ :=
      nextFreeId_nonempty (messages.map (·.id)) (by simpa using hm)
    refine ⟨m, hmem, hmax,
      { id := nextFreeId (messages.map (·.id)), name := mbody.name,
        subject := mbody.subject, message := mbody.message, date := now,
        read := false, likes := some 0 }, hnext, ?_⟩
    simp [createMessageRoute, hmid]

theorem id_assignment_witness :
    demoEvents134 ≠ [] ∧ demoEventBody.id = none ∧
    (∃ m, m ∈ demoEvents134.map (·.id) ∧
      (∀ j ∈ demoEvents134.map (·.id), j ≤ m) ∧
      (createEventRoute demoEvents134 demoEventBody "t1").1.id = m + 1 ∧
      (createEventRoute demoEvents134 demoEventBody "t1").2 =
        demoEvents134 ++ [(createEventRoute demoEvents134 demoEventBody
          "t1").1]) ∧
    (createEventRoute demoEvents134 demoEventBody "t1").1.id = 5 ∧
    (createEventRoute (deleteEventRoute demoEvents134 4).2 demoEventBody
      "t2").1.id = 4 := by
  have h := id_assignment demoEvents134 [⟨1, "t", "d", "c", "image", "png",
    "x", "admin", "t0"⟩] [⟨1, "n", "s", "m", "d0", false, some 0⟩]
    demoEventBody ⟨none, "n", "s", "m"⟩ "t1" "ti" "de" "ca" "fi" "image"
    "png" "admin" (by decide) (by decide) (by decide)
    ⟨by decide, by decide, by decide, by decide⟩ rfl rfl
  exact ⟨by decide, rfl, h.1, h.2.2.2.2.2.2.1, h.2.2.2.2.2.2.2⟩

/-! ### C9: FAQ listing — top 20 by likes, stable ties, safe projection -/

theorem faqLE_trans (a b c : Message) (hab : faqLE a b) (hbc : faqLE b c) :
    faqLE a c := by
  simp only [faqLE, decide_eq_true_eq] at *
  omega

theorem faqLE_total (a b : Message) : faqLE a b || faqLE b a := by
  simp only [faqLE]
  rcases Nat.le_total (likesOf b) (likesOf a) with h | h
  · simp [h]
  · simp [h]

/-- Claim C9: the FAQ endpoint returns `min 20 n` of the `n` stored messages
(exactly 20 when at least 20 exist), ordered by like count descending; the
collection splits (up to the sort's permutation) into the kept messages — the
output, projected — and the dropped ones, every kept message having at least
as many likes as every dropped one; ties keep their original collection order
(any like-ordered pair of the collection survives as a pair of the sorted
list); and every output item is the `faqProj` projection of a stored message,
whose `FaqItem` codomain carries only `id`, `name`, `subject`, `message`,
`date` and `likes` — no `read` field exists in the output type. -/
theorem faq_top20 (messages : List Message) :
    (faqRoute messages).length = min 20 messages.length ∧
    List.Pairwise (fun x y : FaqItem => y.likes ≤ x.likes)
      (faqRoute messages) ∧
    (∃ kept dropped, messages.Perm (kept ++ dropped) ∧
      faqRoute messages = kept.map faqProj ∧
      ∀ a ∈ kept, ∀ b ∈ dropped, likesOf b ≤ likesOf a) ∧
    (∀ a b : Message, likesOf b ≤ likesOf a → List.Sublist [a, b] messages →
      List.Sublist [a, b] (messages.mergeSort faqLE)) ∧
    (∀ x ∈ faqRoute messages, ∃ m ∈ messages, x = faqProj m) := by
  have hsorted := List.sorted_mergeSort faqLE_trans faqLE_total messages
  refine ⟨?_, ?_, ?_, ?_, ?_⟩
  · simp [faqRoute]
  · have htake : ((messages.mergeSort faqLE).take 20).Pairwise
        (fun a b : Message => faqLE a b) :=
      hsorted.sublist (List.take_sublist 20 _)
    rw [faqRoute, List.pairwise_map]
    refine htake.imp ?_
    intro a b hab
    simpa [faqLE, faqProj, decide_eq_true_eq] using hab
  · refine ⟨(messages.mergeSort faqLE).take 20,
      (messages.mergeSort faqLE).drop 20, ?_, rfl, ?_⟩
    · rw [List.take_append_drop]
      exact (List.mergeSort_perm messages faqLE).symm
    · have := hsorted
      rw [← List.take_append_drop 20 (messages.mergeSort faqLE),
        List.pairwise_append] at this
      intro a ha b hb
      have hab := this.2.2 a ha b hb
      simpa [faqLE, decide_eq_true_eq] using hab
  · intro a b hab hsub
    exact List.pair_sublist_mergeSort faqLE_trans faqLE_total
      (by simpa [faqLE] using hab) hsub
  · intro x hx
    rw [faqRoute] at hx
    obtain ⟨m, hmem, hproj⟩ := List.mem_map.mp hx
    refine ⟨m, ?_, hproj.symm⟩
    have hms : m ∈ messages.mergeSort faqLE :=
      List.take_subset 20 _ hmem
    exact List.mem_mergeSort.mp hms

/-- Two messages with equal like counts for the stability instantiation. -/
def demoFaqA : Message :=
  { id := 1, name := "A", subject := "s1", message := "q1", date := "d1",
    read := false, likes := some 2 }

def demoFaqB : Message :=
  { id := 2, name := "B", subject := "s2", message := "q2", date := "d2",
    read := true, likes := some 2 }

def demoFaqMsgs : List Message := [demoFaqA, demoFaqB]

theorem faq_top20_witness :
    (faqRoute demoFaqMsgs).length = min 20 demoFaqMsgs.length ∧
    List.Sublist [demoFaqA, demoFaqB] (demoFaqMsgs.mergeSort faqLE) :=
  ⟨(faq_top20 demoFaqMsgs).1,
    (faq_top20 demoFaqMsgs).2.2.2.1 demoFaqA demoFaqB (by decide)
      (List.Sublist.refl _)⟩

/-! ### C10: like increments exactly one counter by exactly one -/

theorem likeRoute_split (pre post : List Message) (m : Message) (i : Nat)
    (hpre : ∀ x ∈ pre, (x.id == i) = false) (hm : m.id = i) :
    likeRoute (pre ++ m :: post) i =
      (⟨200, toString (likesOf m + 1)⟩,
        pre ++ { m with likes := some (likesOf m + 1) } :: post) := by
  have hpm : (fun x : Message => x.id == i) m = true := by simp [hm]
  have hfind : (pre ++ m :: post).find? (fun x => x.id == i) = some m := by
    rw [List.find?_append]
    have h1 : pre.find? (fun x => x.id == i) = none :=
      List.find?_eq_none.mpr fun x hx => by simp [hpre x hx]
    rw [h1]
    simp [hm]
  simp only [likeRoute, hfind]
  rw [modifyFirst_append_not _ _ _ _ _ hpre hpm]

theorem likeIter_split (pre post : List Message) (i : Nat)
    (hpre : ∀ x ∈ pre, (x.id == i) = false) :
    ∀ (n : Nat) (m : Message), m.id = i →
      likeIter (n + 1) (pre ++ m :: post) i =
        pre ++ { m with likes := some (likesOf m + (n + 1)) } :: post := by
  intro n
  induction n with
  | zero =>
      intro m hm
      show likeIter 0 (likeRoute (pre ++ m :: post) i).2 i = _
      rw [likeRoute_split pre post m i hpre hm]
      rfl
  | succ k ih =>
      intro m hm
      show likeIter (k + 1) (likeRoute (pre ++ m :: post) i).2 i = _
      rw [likeRoute_split pre post m i hpre hm]
      have hm' : ({ m with likes := some (likesOf m + 1) } : Message).id = i :=
        hm
      rw [ih { m with likes := some (likesOf m + 1) } hm']
      show pre ++ { m with likes := some (likesOf m + 1 + (k + 1)) } :: post
        = pre ++ { m with likes := some (likesOf m + (k + 1 + 1)) } :: post
      have harith : likesOf m + 1 + (k + 1) = likesOf m + (k + 1 + 1) := by
        omega
      rw [harith]

/-- Claim C10: one like call on an id present in the collection — `m` the
first message carrying it — bumps exactly that message's like count by one (a
missing `likes` field counting as zero, the result echoed in the response)
while the rest of the collection, the other fields of `m` and the order are
returned literally unchanged; and with no per-user deduplication, `n + 1`
successive like calls on the same id add exactly `n + 1`. -/
theorem like_increments (pre post : List Message) (m : Message) (i n : Nat)
    (hpre : ∀ x ∈ pre, (x.id == i) = false) (hm : m.id = i) :
    likeRoute (pre ++ m :: post) i =
      (⟨200, toString (likesOf m + 1)⟩,
        pre ++ { m with likes := some (likesOf m + 1) } :: post) ∧
    likeIter (n + 1) (pre ++ m :: post) i =
      pre ++ { m with likes := some (likesOf m + (n + 1)) } :: post :=
  ⟨likeRoute_split pre post m i hpre hm,
    likeIter_split pre post i hpre n m hm⟩

/-- Messages surrounding the liked one, for concrete evaluation: the liked
message (id 1, two existing likes) sits between ids 2 and 3. -/
def demoLikeTarget : Message :=
  { id := 1, name := "T", subject := "st", message := "qt", date := "dt",
    read := false, likes := some 2 }

def demoLikePre : List Message :=
  [{ id := 2, name := "P", subject := "sp", message := "qp", date := "dp",
     read := true, likes := none }]

def demoLikePost : List Message :=
  [{ id := 3, name := "Q", subject := "sq", message := "qq", date := "dq",
     read := false, likes := some 7 }]

theorem like_increments_witness :
    likeRoute (demoLikePre ++ demoLikeTarget :: demoLikePost) 1 =
      (⟨200, toString (likesOf demoLikeTarget + 1)⟩,
        demoLikePre ++
          { demoLikeTarget with likes := some (likesOf demoLikeTarget + 1) }
            :: demoLikePost) ∧
    likeIter 3 (demoLikePre ++ demoLikeTarget :: demoLikePost) 1 =
      demoLikePre ++
        { demoLikeTarget with likes := some (likesOf demoLikeTarget + 3) }
          :: demoLikePost :=
  like_increments demoLikePre demoLikePost demoLikeTarget 1 2
    (by decide) rfl

end KTA
